import Mathlib

/-!
Shallow embedding of `analyze-veteran-data.py`.

The script derives, for each veteran-category metric column of a tabular
dataset, a per-100k rate column and a percentage column relative to a chosen
population column, sorts the resulting table descending by the per-100k rate,
and writes it to `<out_dir>/<kebab-metric><file_suffix>.csv`.

Modelling choices:
* a raw table cell is `Cell`: a numeric value (modelled exactly as a rational),
  a non-numeric text, or a missing value; `pd.to_numeric(_, errors="coerce")`
  becomes `cellToNum : Cell → Option ℚ` (non-numeric and missing coerce to
  `none`, i.e. NaN);
* float arithmetic on the derived columns is modelled exactly over ℚ extended
  with IEEE special values (`EV`): division by an undefined (NaN) population
  gives NaN, division of a nonzero numerator by zero gives ±infinity and of
  zero by zero gives NaN, exactly as numpy/pandas element-wise division does;
* `DataFrame.sort_values(by=..., ascending=False)` sorts the rows descending
  by the key column with NaN keys placed last (pandas default
  `na_position="last"`); it is modelled by an insertion sort under the total
  preorder `rowLE`, which realises exactly that key order;
* the two filesystem effects of the routine (`mkdir(parents=True,
  exist_ok=True)` and `DataFrame.to_csv`, an overwriting write) are recorded
  in an effect trace `List FsOp`, and the Python `KeyError` exceptions (the
  explicit population-column check, and pandas raising on a missing column
  lookup for the metric or `state` column) become the `Except` error branch,
  in the evaluation order of the source; an error is raised before any
  filesystem effect, so the trace of a failing invocation is empty.
-/

/-- A raw cell of the input table. -/
inductive Cell where
  | numeric : ℚ → Cell
  | text : String → Cell
  | missing : Cell
deriving DecidableEq

/-- An IEEE-style extended value: NaN, ±infinity, or an exact finite value. -/
inductive EV where
  | nan : EV
  | inf : EV
  | ninf : EV
  | num : ℚ → EV
deriving DecidableEq

instance {e a : Type} [DecidableEq e] [DecidableEq a] : DecidableEq (Except e a) := fun x y =>
  match x, y with
  | .ok u, .ok v =>
    if h : u = v then .isTrue (by rw [h]) else .isFalse (by intro hc; cases hc; exact h rfl)
  | .error u, .error v =>
    if h : u = v then .isTrue (by rw [h]) else .isFalse (by intro hc; cases hc; exact h rfl)
  | .ok _, .error _ => .isFalse (by intro hc; cases hc)
  | .error _, .ok _ => .isFalse (by intro hc; cases hc)

/-- Numeric coercion of one cell: `pd.to_numeric(cell, errors="coerce")`.
Non-numeric text and missing values coerce to `none` (NaN). -/
def cellToNum : Cell → Option ℚ
  | .numeric q => some q
  | .text _ => none
  | .missing => none

/-- Element-wise float division `m / p` of a (filled, hence always defined)
numerator by a possibly undefined denominator, with numpy semantics:
NaN denominator propagates NaN; division by zero gives ±infinity for a
nonzero numerator and NaN for `0 / 0`. -/
def evDiv (m : ℚ) (p : Option ℚ) : EV :=
  match p with
  | none => .nan
  | some q =>
    if q = 0 then (if m = 0 then .nan else if 0 < m then .inf else .ninf)
    else .num (m / q)

/-- Multiplication of an extended value by a positive literal constant
(`* 100000` and `* 100` in the source): NaN and ±infinity are preserved. -/
def evScale (x : EV) (k : ℚ) : EV :=
  match x with
  | .nan => .nan
  | .inf => .inf
  | .ninf => .ninf
  | .num q => .num (q * k)

/-- Truncation toward zero, the behaviour of `Series.astype(int)` on floats. -/
def truncQ (q : ℚ) : ℤ := if q < 0 then ⌈q⌉ else ⌊q⌋

/-- The fixed metric vocabulary of the script. -/
def METRICS : List String :=
  ["allVeterans", "peacetimeVeterans", "wartimeVeterans", "ww2",
   "koreanWar", "vietnamWar", "gulfWar"]

/-- One step of the `camel_to_kebab` loop body: on an upper-case character,
append a hyphen (unless the output so far is empty or already ends in a
hyphen) and then the lower-cased character; otherwise append the character. -/
def camelStep (out : List Char) (ch : Char) : List Char :=
  if ch.isUpper then
    (if out ≠ [] ∧ out.getLast? ≠ some '-' then out ++ ['-'] else out) ++ [ch.toLower]
  else out ++ [ch]

/-- The character-list form of `camel_to_kebab`. -/
def camelChars (name : List Char) : List Char := name.foldl camelStep []

/-- Source `camel_to_kebab`: camelCase to kebab-case, e.g.
`allVeterans ↦ all-veterans`. -/
def camel_to_kebab (name : String) : String := String.mk (camelChars name.data)

/-- The input table: named columns and rows of raw cells
(`df.columns` and the row data of the DataFrame). -/
structure Table where
  cols : List String
  rows : List (List Cell)
deriving DecidableEq

/-- One row of the output table of `make_output_for_metric`: the `state`
cell, the two derived rate columns, and the integer base metric value. -/
structure OutRow where
  state : Cell
  per100k : EV
  pct : EV
  base : ℤ
deriving DecidableEq

/-- The output table `out_df`: its column names, in order, and its rows. -/
structure OutTable where
  colNames : List String
  rows : List OutRow
deriving DecidableEq

/-- A filesystem effect of the routine: `out_dir.mkdir(parents=True,
exist_ok=True)`, or the overwriting CSV write `out_df.to_csv(out_path)`. -/
inductive FsOp where
  | mkdirP : String → FsOp
  | writeFile : String → FsOp
deriving DecidableEq

/-- A Python `KeyError` carrying the missing column name: raised explicitly
for a missing population column, and by pandas for a missing metric or
`state` column. -/
inductive BuildError where
  | KeyError : String → BuildError
deriving DecidableEq

/-- Index of the first occurrence of a column name in the column list
(the length of the list if absent; only used for present columns). -/
def idxOf (c : String) : List String → Nat
  | [] => 0
  | x :: xs => if x = c then 0 else idxOf c xs + 1

/-- The cell at position `i` of a row (`missing` when out of range). -/
def cellAt : List Cell → Nat → Cell
  | [], _ => .missing
  | x :: _, 0 => x
  | _ :: xs, n + 1 => cellAt xs n

/-- The per-row computation of the builder, lines 61–68 of the source:
`pop` is the coerced population cell (NaN for non-numeric), the metric cell
is coerced with `fillna(0.0)`, the two rates are the element-wise quotient
scaled by 100000 and 100, and the base value is the coerced metric cell
truncated to an integer. -/
def buildRow (pidx midx sidx : Nat) (r : List Cell) : OutRow :=
  let p := cellToNum (cellAt r pidx)
  let m := (cellToNum (cellAt r midx)).getD 0
  { state := cellAt r sidx
    per100k := evScale (evDiv m p) 100000
    pct := evScale (evDiv m p) 100
    base := truncQ m }

/-- The order on non-NaN extended values (`nan` arguments return `false`;
`rowLE` handles NaN keys separately). -/
def evLeb : EV → EV → Bool
  | .nan, _ => false
  | _, .nan => false
  | .ninf, _ => true
  | _, .inf => true
  | .inf, .num _ => false
  | .inf, .ninf => false
  | .num _, .ninf => false
  | .num a, .num b => decide (a ≤ b)

/-- The total preorder realising `sort_values(by=per_col, ascending=False)`
with pandas' default `na_position="last"`: row `a` may precede row `b` iff
`b`'s key is NaN, or neither key is NaN and `a`'s key is ≥ `b`'s key. -/
def rowLE (a b : OutRow) : Prop :=
  (if b.per100k = .nan then true
   else if a.per100k = .nan then false
   else evLeb b.per100k a.per100k) = true

instance : DecidableRel rowLE := fun a b => by unfold rowLE; infer_instance

/-- Source `make_output_for_metric`: checks the population column, computes
the derived columns row-wise, assembles `out_df` with columns
`state, <metric>Per100k<suffix>, <metric>Pct<suffix>, <metric>`, sorts it
descending by the per-100k column, ensures the output directory exists and
writes `<out_dir>/<kebab-metric><file_suffix>.csv`, returning the path.
The returned pair is (effect trace, result). -/
def make_output_for_metric (df : Table) (metric : String) (out_dir : String)
    (pop_col : String := "population") (per_label_suffix : String := "")
    (file_suffix : String := "-rate") :
    List FsOp × Except BuildError (OutTable × String) :=
  if pop_col ∈ df.cols then
    if metric ∈ df.cols then
      if "state" ∈ df.cols then
        let pidx := idxOf pop_col df.cols
        let midx := idxOf metric df.cols
        let sidx := idxOf "state" df.cols
        let per_col := metric ++ "Per100k" ++ per_label_suffix
        let pct_col := metric ++ "Pct" ++ per_label_suffix
        let sorted := List.insertionSort rowLE (df.rows.map (buildRow pidx midx sidx))
        let out_path := out_dir ++ "/" ++ camel_to_kebab metric ++ file_suffix ++ ".csv"
        ([.mkdirP out_dir, .writeFile out_path],
         .ok ({ colNames := ["state", per_col, pct_col, metric], rows := sorted }, out_path))
      else ([], .error (.KeyError "state"))
    else ([], .error (.KeyError metric))
  else ([], .error (.KeyError pop_col))

/-- On an upper-case letter, `Char.toLower` adds 32 to the code point. -/
lemma toLower_of_isUpper (c : Char) (h : c.isUpper = true) :
    c.toLower = Char.ofNat (c.toNat + 32) := by
  simp [Char.isUpper] at h
  have h1 : 65 ≤ c.toNat := h.1
  have h2 : c.toNat ≤ 90 := h.2
  simp only [Char.toLower]
  rw [if_pos ⟨h1, h2⟩]

/-- Lower-casing an upper-case letter yields a non-upper-case character that
is not a hyphen. -/
lemma toLower_isUpper_props (c : Char) (h : c.isUpper = true) :
    (c.toLower).isUpper = false ∧ c.toLower ≠ '-' := by
  rw [toLower_of_isUpper c h]
  simp [Char.isUpper] at h
  have h1 : 65 ≤ c.toNat := h.1
  have h2 : c.toNat ≤ 90 := h.2
  have key : ∀ n : Nat, 65 ≤ n → n ≤ 90 →
      (Char.ofNat (n + 32)).isUpper = false ∧ Char.ofNat (n + 32) ≠ '-' := by
    intro n hn1 hn2
    interval_cases n <;> exact ⟨by decide, by decide⟩
  exact key c.toNat h1 h2

/-- A letter that is not upper case is not a hyphen. -/
lemma alpha_not_upper_ne_dash (c : Char) (h : c.isAlpha = true)
    (h2 : c.isUpper = false) : c ≠ '-' := by
  intro he
  subst he
  simp [Char.isAlpha, Char.isUpper, Char.isLower] at h h2

/-- The contribution of one input character to the normalizer's output:
an upper-case character becomes a hyphen followed by its lower case,
any other character is kept as is. -/
def kebabTail (c : Char) : List Char := if c.isUpper then ['-', c.toLower] else [c]

/-- Closed form of the normalizer's output for the characters after the
first one. -/
def kebabExpand : List Char → List Char
  | [] => []
  | c :: cs => kebabTail c ++ kebabExpand cs

/-- When the output so far is non-empty and does not end in a hyphen, one
loop step of the normalizer appends exactly `kebabTail ch`. -/
lemma camelStep_of_ok (out : List Char) (ch : Char) (h1 : out ≠ [])
    (h2 : out.getLast? ≠ some '-') : camelStep out ch = out ++ kebabTail ch := by
  by_cases hu : ch.isUpper = true
  · simp [camelStep, hu, kebabTail, h1, h2]
  · simp [camelStep, hu, kebabTail]

/-- Appending `kebabTail c` of a letter keeps the output non-empty and not
hyphen-terminated. -/
lemma append_kebabTail_props (acc : List Char) (c : Char) (hc : c.isAlpha = true) :
    acc ++ kebabTail c ≠ [] ∧ (acc ++ kebabTail c).getLast? ≠ some '-' := by
  by_cases hu : c.isUpper = true
  · have he : acc ++ kebabTail c = (acc ++ ['-']) ++ [c.toLower] := by
      simp [kebabTail, hu]
    refine ⟨by simp [kebabTail, hu], ?_⟩
    rw [he, List.getLast?_concat]
    have := (toLower_isUpper_props c hu).2
    simp [this]
  · have he : acc ++ kebabTail c = acc ++ [c] := by simp [kebabTail, hu]
    refine ⟨by simp [kebabTail, hu], ?_⟩
    rw [he, List.getLast?_concat]
    have := alpha_not_upper_ne_dash c hc (by simpa using hu)
    simp [this]

/-- Accumulator form of the normalizer's closed form: starting from a
non-empty output that does not end in a hyphen, the loop appends
`kebabExpand` of the remaining letters. -/
lemma foldl_camelStep_closed (cs : List Char) : ∀ acc : List Char, acc ≠ [] →
    acc.getLast? ≠ some '-' → (∀ x ∈ cs, x.isAlpha = true) →
    List.foldl camelStep acc cs = acc ++ kebabExpand cs := by
  induction cs with
  | nil => intro acc _ _ _; simp [kebabExpand]
  | cons c cs ih =>
    intro acc h1 h2 ha
    have hac : c.isAlpha = true := ha c (by simp)
    have hstep : camelStep acc c = acc ++ kebabTail c := camelStep_of_ok acc c h1 h2
    obtain ⟨h1', h2'⟩ := append_kebabTail_props acc c hac
    rw [List.foldl_cons, hstep,
      ih (acc ++ kebabTail c) h1' h2' (fun x hx => ha x (by simp [hx]))]
    simp [kebabExpand]

/-- Closed form of the normalizer on a non-empty all-letter input: the first
character is lower-cased with no hyphen before it, and every later character
contributes `kebabTail`. -/
lemma camelChars_closed (c : Char) (cs : List Char)
    (h : ∀ x ∈ c :: cs, x.isAlpha = true) :
    camelChars (c :: cs) =
      (if c.isUpper = true then [c.toLower] else [c]) ++ kebabExpand cs := by
  have hc : c.isAlpha = true := h c (by simp)
  have hstep : camelStep [] c = if c.isUpper = true then [c.toLower] else [c] := by
    by_cases hu : c.isUpper = true <;> simp [camelStep, hu]
  have hrest : ∀ x ∈ cs, x.isAlpha = true := fun x hx => h x (by simp [hx])
  unfold camelChars
  rw [List.foldl_cons, hstep]
  by_cases hu : c.isUpper = true
  · rw [if_pos hu]
    exact foldl_camelStep_closed cs [c.toLower] (by simp)
      (by simp [(toLower_isUpper_props c hu).2]) hrest
  · rw [if_neg hu]
    exact foldl_camelStep_closed cs [c] (by simp)
      (by simp [alpha_not_upper_ne_dash c hc (by simpa using hu)]) hrest

/-- Number of hyphens contributed by the characters after the first: one per
upper-case (word-boundary) character. -/
lemma count_dash_kebabExpand (cs : List Char) (ha : ∀ x ∈ cs, x.isAlpha = true) :
    (kebabExpand cs).count '-' = cs.countP (fun x => x.isUpper) := by
  induction cs with
  | nil => simp [kebabExpand]
  | cons c cs ih =>
    have hac : c.isAlpha = true := ha c (by simp)
    have hrest : ∀ x ∈ cs, x.isAlpha = true := fun x hx => ha x (by simp [hx])
    by_cases hu : c.isUpper = true
    · have hne := (toLower_isUpper_props c hu).2
      simp [kebabExpand, kebabTail, hu, List.count_append, List.count_cons, hne,
        List.countP_cons, ih hrest]
    · have hne := alpha_not_upper_ne_dash c hac (by simpa using hu)
      simp [kebabExpand, kebabTail, hu, List.count_append, List.count_cons, hne,
        List.countP_cons, ih hrest]

/-- No character produced by `kebabExpand` on letters is upper case. -/
lemma kebabExpand_not_upper (cs : List Char) (ha : ∀ x ∈ cs, x.isAlpha = true) :
    ∀ x ∈ kebabExpand cs, x.isUpper = false := by
  induction cs with
  | nil => simp [kebabExpand]
  | cons c cs ih =>
    have hac : c.isAlpha = true := ha c (by simp)
    have hrest : ∀ x ∈ cs, x.isAlpha = true := fun x hx => ha x (by simp [hx])
    intro x hx
    by_cases hu : c.isUpper = true
    · rw [kebabExpand] at hx
      simp [kebabTail, hu] at hx
      rcases hx with h | h | h
      · subst h; decide
      · subst h; exact (toLower_isUpper_props c hu).1
      · exact ih hrest x h
    · rw [kebabExpand] at hx
      simp [kebabTail, hu] at hx
      rcases hx with h | h
      · subst h; simpa using hu
      · exact ih hrest x h

/-- The list has no two consecutive hyphens. -/
def noDoubleDash : List Char → Prop
  | a :: b :: rest => ¬(a = '-' ∧ b = '-') ∧ noDoubleDash (b :: rest)
  | _ => True

/-- Prepending a non-hyphen character to `kebabExpand` of letters never
creates two consecutive hyphens. -/
lemma noDoubleDash_cons_kebabExpand (cs : List Char)
    (ha : ∀ x ∈ cs, x.isAlpha = true) :
    ∀ a : Char, a ≠ '-' → noDoubleDash (a :: kebabExpand cs) := by
  induction cs with
  | nil =>
    intro a _
    simp [kebabExpand, noDoubleDash]
  | cons c cs ih =>
    intro a hane
    have hac : c.isAlpha = true := ha c (by simp)
    have hrest : ∀ x ∈ cs, x.isAlpha = true := fun x hx => ha x (by simp [hx])
    by_cases hu : c.isUpper = true
    · have hlne := (toLower_isUpper_props c hu).2
      have : kebabExpand (c :: cs) = '-' :: c.toLower :: kebabExpand cs := by
        simp [kebabExpand, kebabTail, hu]
      rw [this]
      exact ⟨fun hc => hane hc.1, fun hc => hlne hc.2, ih hrest c.toLower hlne⟩
    · have hcne := alpha_not_upper_ne_dash c hac (by simpa using hu)
      have : kebabExpand (c :: cs) = c :: kebabExpand cs := by
        simp [kebabExpand, kebabTail, hu]
      rw [this]
      exact ⟨fun hc => hcne hc.2, ih hrest c hcne⟩

/-- Appending `kebabExpand` of letters to a non-empty output not ending in a
hyphen leaves the last character a non-hyphen. -/
lemma getLast_append_kebabExpand (cs : List Char) : ∀ acc : List Char, acc ≠ [] →
    acc.getLast? ≠ some '-' → (∀ x ∈ cs, x.isAlpha = true) →
    (acc ++ kebabExpand cs).getLast? ≠ some '-' := by
  induction cs with
  | nil => intro acc _ h2 _; simpa [kebabExpand] using h2
  | cons c cs ih =>
    intro acc h1 h2 ha
    have hac : c.isAlpha = true := ha c (by simp)
    have hrest : ∀ x ∈ cs, x.isAlpha = true := fun x hx => ha x (by simp [hx])
    obtain ⟨h1', h2'⟩ := append_kebabTail_props acc c hac
    have : acc ++ kebabExpand (c :: cs) = (acc ++ kebabTail c) ++ kebabExpand cs := by
      simp [kebabExpand]
    rw [this]
    exact ih (acc ++ kebabTail c) h1' h2' hrest

/-- The key order is reflexive away from NaN. -/
lemma evLeb_refl (a : EV) (h : a ≠ .nan) : evLeb a a = true := by
  cases a with
  | nan => exact absurd rfl h
  | inf => rfl
  | ninf => rfl
  | num q => simp [evLeb]

/-- The key order is total away from NaN. -/
lemma evLeb_total (a b : EV) (ha : a ≠ .nan) (hb : b ≠ .nan) :
    evLeb a b = true ∨ evLeb b a = true := by
  cases a <;> cases b <;> simp [evLeb] at * <;> exact le_total _ _

/-- The key order is transitive. -/
lemma evLeb_trans (a b c : EV) (h1 : evLeb a b = true) (h2 : evLeb b c = true) :
    evLeb a c = true := by
  cases a <;> cases b <;> cases c <;> simp [evLeb] at * <;> exact le_trans h1 h2

instance : IsTotal OutRow rowLE := by
  constructor
  intro a b
  unfold rowLE
  by_cases hb : b.per100k = .nan
  · left; simp [hb]
  · by_cases ha : a.per100k = .nan
    · right; simp [ha]
    · rcases evLeb_total b.per100k a.per100k hb ha with h | h
      · left; simp [ha, hb, h]
      · right; simp [ha, hb, h]

instance : IsTrans OutRow rowLE := by
  constructor
  intro a b c h1 h2
  unfold rowLE at *
  by_cases hc : c.per100k = .nan
  · simp [hc]
  · have hb : b.per100k ≠ .nan := by
      intro hb
      simp [hb, hc] at h2
    have ha : a.per100k ≠ .nan := by
      intro ha
      simp [ha, hb] at h1
    simp [ha, hb, hc] at h1 h2 ⊢
    exact evLeb_trans _ _ _ h2 h1

/-- Equation for a successful invocation: with all three required columns
present, the builder performs exactly the mkdir and the CSV write, and
returns the sorted output table and the derived path. -/
lemma make_output_pos (df : Table) (metric out_dir pop_col ls fs : String)
    (hp : pop_col ∈ df.cols) (hm : metric ∈ df.cols) (hs : "state" ∈ df.cols) :
    make_output_for_metric df metric out_dir pop_col ls fs =
      ([.mkdirP out_dir,
        .writeFile (out_dir ++ "/" ++ camel_to_kebab metric ++ fs ++ ".csv")],
       .ok ({ colNames := ["state", metric ++ "Per100k" ++ ls,
                           metric ++ "Pct" ++ ls, metric],
              rows := List.insertionSort rowLE (df.rows.map
                (buildRow (idxOf pop_col df.cols) (idxOf metric df.cols)
                  (idxOf "state" df.cols))) },
            out_dir ++ "/" ++ camel_to_kebab metric ++ fs ++ ".csv")) := by
  simp [make_output_for_metric, hp, hm, hs]

/-- Equation for the failing population-column check. -/
lemma make_output_err_pop (df : Table) (metric out_dir pop_col ls fs : String)
    (hp : pop_col ∉ df.cols) :
    make_output_for_metric df metric out_dir pop_col ls fs =
      ([], .error (.KeyError pop_col)) := by
  simp [make_output_for_metric, hp]

/-- Equation for the failing metric-column lookup. -/
lemma make_output_err_metric (df : Table) (metric out_dir pop_col ls fs : String)
    (hp : pop_col ∈ df.cols) (hm : metric ∉ df.cols) :
    make_output_for_metric df metric out_dir pop_col ls fs =
      ([], .error (.KeyError metric)) := by
  simp [make_output_for_metric, hp, hm]

/-- Equation for the failing `state`-column lookup. -/
lemma make_output_err_state (df : Table) (metric out_dir pop_col ls fs : String)
    (hp : pop_col ∈ df.cols) (hm : metric ∈ df.cols) (hs : "state" ∉ df.cols) :
    make_output_for_metric df metric out_dir pop_col ls fs =
      ([], .error (.KeyError "state")) := by
  simp [make_output_for_metric, hp, hm, hs]

/-- A successful invocation implies all three required columns are present. -/
lemma make_output_ok_inv {df : Table} {metric out_dir pop_col ls fs : String}
    {eff : List FsOp} {ot : OutTable} {pth : String}
    (h : make_output_for_metric df metric out_dir pop_col ls fs =
      (eff, .ok (ot, pth))) :
    pop_col ∈ df.cols ∧ metric ∈ df.cols ∧ "state" ∈ df.cols := by
  by_cases hp : pop_col ∈ df.cols
  · by_cases hm : metric ∈ df.cols
    · by_cases hs : "state" ∈ df.cols
      · exact ⟨hp, hm, hs⟩
      · rw [make_output_err_state df metric out_dir pop_col ls fs hp hm hs] at h
        simp [Prod.ext_iff] at h
    · rw [make_output_err_metric df metric out_dir pop_col ls fs hp hm] at h
      simp [Prod.ext_iff] at h
  · rw [make_output_err_pop df metric out_dir pop_col ls fs hp] at h
    simp [Prod.ext_iff] at h

/-- What a successful invocation returns, component by component. -/
lemma make_output_ok_eq {df : Table} {metric out_dir pop_col ls fs : String}
    {eff : List FsOp} {ot : OutTable} {pth : String}
    (h : make_output_for_metric df metric out_dir pop_col ls fs =
      (eff, .ok (ot, pth))) :
    ot.rows = List.insertionSort rowLE (df.rows.map
      (buildRow (idxOf pop_col df.cols) (idxOf metric df.cols)
        (idxOf "state" df.cols))) ∧
    ot.colNames = ["state", metric ++ "Per100k" ++ ls,
                   metric ++ "Pct" ++ ls, metric] ∧
    pth = out_dir ++ "/" ++ camel_to_kebab metric ++ fs ++ ".csv" ∧
    eff = [.mkdirP out_dir, .writeFile pth] := by
  obtain ⟨hp, hm, hs⟩ := make_output_ok_inv h
  rw [make_output_pos df metric out_dir pop_col ls fs hp hm hs] at h
  simp only [Prod.ext_iff, Except.ok.injEq] at h
  obtain ⟨heff, hok, hpth⟩ := h
  constructor
  · rw [← hok]
  constructor
  · rw [← hok]
  constructor
  · rw [← hpth]
  · rw [← heff, ← hpth]

/-- Every input row contributes its computed output row to the (sorted)
output table of a successful invocation. -/
lemma buildRow_mem_output {df : Table} {metric out_dir pop_col ls fs : String}
    {eff : List FsOp} {ot : OutTable} {pth : String} {r : List Cell}
    (h : make_output_for_metric df metric out_dir pop_col ls fs =
      (eff, .ok (ot, pth)))
    (hr : r ∈ df.rows) :
    buildRow (idxOf pop_col df.cols) (idxOf metric df.cols)
      (idxOf "state" df.cols) r ∈ ot.rows := by
  rw [(make_output_ok_eq h).1]
  rw [(List.perm_insertionSort rowLE _).mem_iff]
  exact List.mem_map_of_mem _ hr

/-- A one-row well-formed input table. -/
def Tbasic : Table :=
  { cols := ["state", "population", "allVeterans"]
    rows := [[.text "A", .numeric 1000000, .numeric 50000]] }

/-- The output table of the builder on `Tbasic`. -/
def OTbasic : OutTable :=
  { colNames := ["state", "allVeteransPer100k", "allVeteransPct", "allVeterans"]
    rows := [⟨.text "A", .num 5000, .num 5, 50000⟩] }

/-- C1: for every input row whose population cell is numeric and strictly
positive and whose metric cell is numeric, the builder's output row for that
input row carries per100k = metricValue / population * 100000 and
pct = metricValue / population * 100 = per100k / 1000, and that output row
appears in the builder's output table. -/
theorem C1_rate_formula (df : Table) (metric out_dir pop_col ls fs : String)
    (eff : List FsOp) (ot : OutTable) (pth : String) (r : List Cell) (p m : ℚ)
    (h : make_output_for_metric df metric out_dir pop_col ls fs =
      (eff, .ok (ot, pth)))
    (hr : r ∈ df.rows)
    (hp : cellToNum (cellAt r (idxOf pop_col df.cols)) = some p) (hpos : 0 < p)
    (hm : cellToNum (cellAt r (idxOf metric df.cols)) = some m) :
    (buildRow (idxOf pop_col df.cols) (idxOf metric df.cols)
        (idxOf "state" df.cols) r).per100k = .num (m / p * 100000) ∧
    (buildRow (idxOf pop_col df.cols) (idxOf metric df.cols)
        (idxOf "state" df.cols) r).pct = .num (m / p * 100) ∧
    m / p * 100 = (m / p * 100000) / 1000 ∧
    buildRow (idxOf pop_col df.cols) (idxOf metric df.cols)
        (idxOf "state" df.cols) r ∈ ot.rows := by
  refine ⟨?_, ?_, by ring, buildRow_mem_output h hr⟩
  · simp [buildRow, hp, hm, evDiv, evScale, hpos.ne']
  · simp [buildRow, hp, hm, evDiv, evScale, hpos.ne']

theorem C1_rate_formula_witness :
    (buildRow (idxOf "population" Tbasic.cols) (idxOf "allVeterans" Tbasic.cols)
        (idxOf "state" Tbasic.cols)
        [Cell.text "A", Cell.numeric 1000000, Cell.numeric 50000]).per100k =
      .num ((50000 : ℚ) / 1000000 * 100000) ∧
    (buildRow (idxOf "population" Tbasic.cols) (idxOf "allVeterans" Tbasic.cols)
        (idxOf "state" Tbasic.cols)
        [Cell.text "A", Cell.numeric 1000000, Cell.numeric 50000]).pct =
      .num ((50000 : ℚ) / 1000000 * 100) ∧
    (50000 : ℚ) / 1000000 * 100 = (50000 : ℚ) / 1000000 * 100000 / 1000 ∧
    buildRow (idxOf "population" Tbasic.cols) (idxOf "allVeterans" Tbasic.cols)
        (idxOf "state" Tbasic.cols)
        [Cell.text "A", Cell.numeric 1000000, Cell.numeric 50000] ∈ OTbasic.rows :=
  C1_rate_formula Tbasic "allVeterans" "out" "population" "" "-rate"
    [.mkdirP "out", .writeFile "out/all-veterans-rate.csv"] OTbasic
    "out/all-veterans-rate.csv"
    [Cell.text "A", Cell.numeric 1000000, Cell.numeric 50000] 1000000 50000
    (by
      norm_num [make_output_for_metric, buildRow, idxOf, cellAt, cellToNum, evDiv,
        evScale, truncQ, rowLE, evLeb, camel_to_kebab, camelChars, camelStep,
        Tbasic, OTbasic, List.insertionSort, List.orderedInsert]
      decide)
    (by simp [Tbasic]) rfl (by norm_num) rfl

/-- A one-row table with population 0 and a positive metric value. -/
def Tzero : Table :=
  { cols := ["state", "population", "allVeterans"]
    rows := [[.text "A", .numeric 0, .numeric 5]] }

/-- The output table of the builder on `Tzero`: the rates are +infinity. -/
def OTzero : OutTable :=
  { colNames := ["state", "allVeteransPer100k", "allVeteransPct", "allVeterans"]
    rows := [⟨.text "A", .inf, .inf, 5⟩] }

/-- A one-row table whose population cell is non-numeric text. -/
def Tpoptext : Table :=
  { cols := ["state", "population", "allVeterans"]
    rows := [[.text "B", .text "n/a", .numeric 7]] }

/-- C2 counterexample: on a row with population 0 and metric value 5 the
builder outputs per100k = pct = +infinity — a defined non-NaN float value —
refuting the claim that both rate columns are NaN whenever the population is
zero. (Element-wise numpy division of a nonzero value by zero yields
infinity, not NaN; only non-numeric population or 0/0 yield NaN.) -/
theorem C2_counterexample :
    (make_output_for_metric Tzero "allVeterans" "out" "population" "" "-rate").2 =
      .ok (OTzero, "out/all-veterans-rate.csv") ∧
    OTzero.rows.map OutRow.per100k = [EV.inf] ∧
    OTzero.rows.map OutRow.pct = [EV.inf] ∧
    EV.inf ≠ EV.nan := by
  refine ⟨?_, by decide, by decide, by decide⟩
  norm_num [make_output_for_metric, buildRow, idxOf, cellAt, cellToNum, evDiv,
    evScale, truncQ, rowLE, evLeb, camel_to_kebab, camelChars, camelStep,
    Tzero, OTzero, List.insertionSort, List.orderedInsert]
  decide

/-- C2 (amended): for every input row whose population cell is zero or
non-numeric, neither rate column of the builder's output row for it is a
finite float value (in particular neither is zero nor any other finite
number): a non-numeric population gives NaN in both rate columns, and a zero
population gives NaN when the coerced metric value is 0 and ±infinity when
it is nonzero. The output row appears in the output table. -/
theorem C2_undefined_rates_amended (df : Table)
    (metric out_dir pop_col ls fs : String)
    (eff : List FsOp) (ot : OutTable) (pth : String) (r : List Cell)
    (h : make_output_for_metric df metric out_dir pop_col ls fs =
      (eff, .ok (ot, pth)))
    (hr : r ∈ df.rows)
    (hpop : cellToNum (cellAt r (idxOf pop_col df.cols)) = none ∨
            cellToNum (cellAt r (idxOf pop_col df.cols)) = some 0) :
    (∀ q : ℚ, (buildRow (idxOf pop_col df.cols) (idxOf metric df.cols)
        (idxOf "state" df.cols) r).per100k ≠ .num q) ∧
    (∀ q : ℚ, (buildRow (idxOf pop_col df.cols) (idxOf metric df.cols)
        (idxOf "state" df.cols) r).pct ≠ .num q) ∧
    (cellToNum (cellAt r (idxOf pop_col df.cols)) = none →
      (buildRow (idxOf pop_col df.cols) (idxOf metric df.cols)
        (idxOf "state" df.cols) r).per100k = .nan ∧
      (buildRow (idxOf pop_col df.cols) (idxOf metric df.cols)
        (idxOf "state" df.cols) r).pct = .nan) ∧
    (cellToNum (cellAt r (idxOf pop_col df.cols)) = some 0 →
      (((cellToNum (cellAt r (idxOf metric df.cols))).getD 0 = 0 →
        (buildRow (idxOf pop_col df.cols) (idxOf metric df.cols)
          (idxOf "state" df.cols) r).per100k = .nan ∧
        (buildRow (idxOf pop_col df.cols) (idxOf metric df.cols)
          (idxOf "state" df.cols) r).pct = .nan) ∧
       (0 < (cellToNum (cellAt r (idxOf metric df.cols))).getD 0 →
        (buildRow (idxOf pop_col df.cols) (idxOf metric df.cols)
          (idxOf "state" df.cols) r).per100k = .inf ∧
        (buildRow (idxOf pop_col df.cols) (idxOf metric df.cols)
          (idxOf "state" df.cols) r).pct = .inf) ∧
       ((cellToNum (cellAt r (idxOf metric df.cols))).getD 0 < 0 →
        (buildRow (idxOf pop_col df.cols) (idxOf metric df.cols)
          (idxOf "state" df.cols) r).per100k = .ninf ∧
        (buildRow (idxOf pop_col df.cols) (idxOf metric df.cols)
          (idxOf "state" df.cols) r).pct = .ninf))) ∧
    buildRow (idxOf pop_col df.cols) (idxOf metric df.cols)
      (idxOf "state" df.cols) r ∈ ot.rows := by
  have hmem := buildRow_mem_output h hr
  rcases hpop with hnone | hzero
  · have e1 : (buildRow (idxOf pop_col df.cols) (idxOf metric df.cols)
        (idxOf "state" df.cols) r).per100k = .nan := by
      simp [buildRow, hnone, evDiv, evScale]
    have e2 : (buildRow (idxOf pop_col df.cols) (idxOf metric df.cols)
        (idxOf "state" df.cols) r).pct = .nan := by
      simp [buildRow, hnone, evDiv, evScale]
    refine ⟨by simp [e1], by simp [e2], fun _ => ⟨e1, e2⟩, fun hs => ?_, hmem⟩
    rw [hnone] at hs
    cases hs
  · rcases lt_trichotomy ((cellToNum (cellAt r (idxOf metric df.cols))).getD 0) 0
      with hm | hm | hm
    · have e1 : (buildRow (idxOf pop_col df.cols) (idxOf metric df.cols)
          (idxOf "state" df.cols) r).per100k = .ninf := by
        simp [buildRow, hzero, evDiv, evScale, hm.ne, lt_asymm hm]
      have e2 : (buildRow (idxOf pop_col df.cols) (idxOf metric df.cols)
          (idxOf "state" df.cols) r).pct = .ninf := by
        simp [buildRow, hzero, evDiv, evScale, hm.ne, lt_asymm hm]
      refine ⟨by simp [e1], by simp [e2], fun hn => ?_, fun _ => ?_, hmem⟩
      · rw [hzero] at hn; cases hn
      · exact ⟨fun h0 => absurd h0 hm.ne, fun hp => absurd hp (lt_asymm hm),
          fun _ => ⟨e1, e2⟩⟩
    · have e1 : (buildRow (idxOf pop_col df.cols) (idxOf metric df.cols)
          (idxOf "state" df.cols) r).per100k = .nan := by
        simp [buildRow, hzero, evDiv, evScale, hm]
      have e2 : (buildRow (idxOf pop_col df.cols) (idxOf metric df.cols)
          (idxOf "state" df.cols) r).pct = .nan := by
        simp [buildRow, hzero, evDiv, evScale, hm]
      refine ⟨by simp [e1], by simp [e2], fun hn => ?_, fun _ => ?_, hmem⟩
      · rw [hzero] at hn; cases hn
      · exact ⟨fun _ => ⟨e1, e2⟩, fun hp => absurd hm.symm hp.ne,
          fun hneg => absurd hm hneg.ne⟩
    · have e1 : (buildRow (idxOf pop_col df.cols) (idxOf metric df.cols)
          (idxOf "state" df.cols) r).per100k = .inf := by
        simp [buildRow, hzero, evDiv, evScale, hm, hm.ne']
      have e2 : (buildRow (idxOf pop_col df.cols) (idxOf metric df.cols)
          (idxOf "state" df.cols) r).pct = .inf := by
        simp [buildRow, hzero, evDiv, evScale, hm, hm.ne']
      refine ⟨by simp [e1], by simp [e2], fun hn => ?_, fun _ => ?_, hmem⟩
      · rw [hzero] at hn; cases hn
      · exact ⟨fun h0 => absurd h0 hm.ne', fun _ => ⟨e1, e2⟩,
          fun hneg => absurd (lt_trans hm hneg) (lt_irrefl 0)⟩

theorem C2_undefined_rates_amended_witness :
    (buildRow (idxOf "population" Tpoptext.cols) (idxOf "allVeterans" Tpoptext.cols)
        (idxOf "state" Tpoptext.cols)
        [Cell.text "B", Cell.text "n/a", Cell.numeric 7]).per100k = EV.nan ∧
    (buildRow (idxOf "population" Tpoptext.cols) (idxOf "allVeterans" Tpoptext.cols)
        (idxOf "state" Tpoptext.cols)
        [Cell.text "B", Cell.text "n/a", Cell.numeric 7]).pct = EV.nan :=
  (C2_undefined_rates_amended Tpoptext "allVeterans" "out" "population" "" "-rate"
    [.mkdirP "out", .writeFile "out/all-veterans-rate.csv"]
    { colNames := ["state", "allVeteransPer100k", "allVeteransPct", "allVeterans"]
      rows := [⟨.text "B", .nan, .nan, 7⟩] }
    "out/all-veterans-rate.csv"
    [Cell.text "B", Cell.text "n/a", Cell.numeric 7]
    (by
      norm_num [make_output_for_metric, buildRow, idxOf, cellAt, cellToNum, evDiv,
        evScale, truncQ, rowLE, evLeb, camel_to_kebab, camelChars, camelStep,
        Tpoptext, List.insertionSort, List.orderedInsert]
      decide)
    (by simp [Tpoptext]) (Or.inl rfl)).2.2.1 rfl

/-- A one-row table with a missing population cell and a non-numeric metric
cell. -/
def Tcoerce : Table :=
  { cols := ["state", "population", "allVeterans"]
    rows := [[.text "C", .missing, .text "abc"]] }

/-- C3: the builder's coercion policy is asymmetric. A non-numeric or
missing population cell coerces to undefined and propagates into NaN rates
(in particular never a zero rate), while a non-numeric or missing metric
cell coerces to 0.0: the rates are then computed with numerator 0 over the
coerced population. -/
theorem C3_coercion_asymmetry (df : Table) (metric out_dir pop_col ls fs : String)
    (eff : List FsOp) (ot : OutTable) (pth : String) (r : List Cell)
    (h : make_output_for_metric df metric out_dir pop_col ls fs =
      (eff, .ok (ot, pth)))
    (hr : r ∈ df.rows) :
    (cellToNum (cellAt r (idxOf pop_col df.cols)) = none →
      (buildRow (idxOf pop_col df.cols) (idxOf metric df.cols)
        (idxOf "state" df.cols) r).per100k = .nan ∧
      (buildRow (idxOf pop_col df.cols) (idxOf metric df.cols)
        (idxOf "state" df.cols) r).pct = .nan ∧
      (buildRow (idxOf pop_col df.cols) (idxOf metric df.cols)
        (idxOf "state" df.cols) r).per100k ≠ .num 0 ∧
      (buildRow (idxOf pop_col df.cols) (idxOf metric df.cols)
        (idxOf "state" df.cols) r).pct ≠ .num 0) ∧
    (cellToNum (cellAt r (idxOf metric df.cols)) = none →
      (cellToNum (cellAt r (idxOf metric df.cols))).getD 0 = 0 ∧
      (buildRow (idxOf pop_col df.cols) (idxOf metric df.cols)
        (idxOf "state" df.cols) r).per100k =
        evScale (evDiv 0 (cellToNum (cellAt r (idxOf pop_col df.cols)))) 100000 ∧
      (buildRow (idxOf pop_col df.cols) (idxOf metric df.cols)
        (idxOf "state" df.cols) r).pct =
        evScale (evDiv 0 (cellToNum (cellAt r (idxOf pop_col df.cols)))) 100) ∧
    buildRow (idxOf pop_col df.cols) (idxOf metric df.cols)
      (idxOf "state" df.cols) r ∈ ot.rows := by
  refine ⟨fun hnone => ?_, fun hmet => ?_, buildRow_mem_output h hr⟩
  · have e1 : (buildRow (idxOf pop_col df.cols) (idxOf metric df.cols)
        (idxOf "state" df.cols) r).per100k = .nan := by
      simp [buildRow, hnone, evDiv, evScale]
    have e2 : (buildRow (idxOf pop_col df.cols) (idxOf metric df.cols)
        (idxOf "state" df.cols) r).pct = .nan := by
      simp [buildRow, hnone, evDiv, evScale]
    exact ⟨e1, e2, by simp [e1], by simp [e2]⟩
  · refine ⟨by rw [hmet]; rfl, ?_, ?_⟩
    · simp [buildRow, hmet]
    · simp [buildRow, hmet]

theorem C3_coercion_asymmetry_witness :
    (cellToNum (cellAt [Cell.text "C", Cell.missing, Cell.text "abc"]
        (idxOf "allVeterans" Tcoerce.cols))).getD 0 = 0 ∧
    (buildRow (idxOf "population" Tcoerce.cols) (idxOf "allVeterans" Tcoerce.cols)
        (idxOf "state" Tcoerce.cols)
        [Cell.text "C", Cell.missing, Cell.text "abc"]).per100k = EV.nan ∧
    (buildRow (idxOf "population" Tcoerce.cols) (idxOf "allVeterans" Tcoerce.cols)
        (idxOf "state" Tcoerce.cols)
        [Cell.text "C", Cell.missing, Cell.text "abc"]).per100k ≠ EV.num 0 :=
  have app := C3_coercion_asymmetry Tcoerce "allVeterans" "out" "population" "" "-rate"
    [.mkdirP "out", .writeFile "out/all-veterans-rate.csv"]
    { colNames := ["state", "allVeteransPer100k", "allVeteransPct", "allVeterans"]
      rows := [⟨.text "C", .nan, .nan, 0⟩] }
    "out/all-veterans-rate.csv"
    [Cell.text "C", Cell.missing, Cell.text "abc"]
    (by
      norm_num [make_output_for_metric, buildRow, idxOf, cellAt, cellToNum, evDiv,
        evScale, truncQ, rowLE, evLeb, camel_to_kebab, camelChars, camelStep,
        Tcoerce, List.insertionSort, List.orderedInsert]
      decide)
    (by simp [Tcoerce])
  ⟨(app.2.1 rfl).1, (app.1 rfl).1, (app.1 rfl).2.2.1⟩

/-- A two-row well-formed input table (the end-to-end scenario of the spec). -/
def Ttwo : Table :=
  { cols := ["state", "population", "allVeterans"]
    rows := [[.text "A", .numeric 1000000, .numeric 50000],
             [.text "B", .numeric 500000, .numeric 5000]] }

/-- The output table of the builder on `Ttwo`. -/
def OTtwo : OutTable :=
  { colNames := ["state", "allVeteransPer100k", "allVeteransPct", "allVeterans"]
    rows := [⟨.text "A", .num 5000, .num 5, 50000⟩,
             ⟨.text "B", .num 1000, .num 1, 5000⟩] }

/-- C4: every successful builder invocation returns an output table with
exactly as many rows as the input table, whatever the cell contents. -/
theorem C4_row_count (df : Table) (metric out_dir pop_col ls fs : String)
    (eff : List FsOp) (ot : OutTable) (pth : String)
    (h : make_output_for_metric df metric out_dir pop_col ls fs =
      (eff, .ok (ot, pth))) :
    ot.rows.length = df.rows.length := by
  rw [(make_output_ok_eq h).1, (List.perm_insertionSort rowLE _).length_eq,
    List.length_map]

theorem C4_row_count_witness : OTtwo.rows.length = Ttwo.rows.length :=
  C4_row_count Ttwo "allVeterans" "out" "population" "" "-rate"
    [.mkdirP "out", .writeFile "out/all-veterans-rate.csv"] OTtwo
    "out/all-veterans-rate.csv"
    (by
      norm_num [make_output_for_metric, buildRow, idxOf, cellAt, cellToNum, evDiv,
        evScale, truncQ, rowLE, evLeb, camel_to_kebab, camelChars, camelStep,
        Ttwo, OTtwo, List.insertionSort, List.orderedInsert]
      decide)

/-- A three-row table: one row with non-numeric population (NaN rate)
between two rows with defined rates. -/
def Tsort : Table :=
  { cols := ["state", "population", "allVeterans"]
    rows := [[.text "A", .numeric 500000, .numeric 5000],
             [.text "N", .text "n/a", .numeric 1],
             [.text "B", .numeric 1000000, .numeric 50000]] }

/-- The output table of the builder on `Tsort`: defined rates descending,
NaN-rate row last. -/
def OTsort : OutTable :=
  { colNames := ["state", "allVeteransPer100k", "allVeteransPct", "allVeterans"]
    rows := [⟨.text "B", .num 5000, .num 5, 50000⟩,
             ⟨.text "A", .num 1000, .num 1, 5000⟩,
             ⟨.text "N", .nan, .nan, 1⟩] }

/-- C5: in the output table of every successful invocation, for every two
positions with defined (non-NaN) per100k keys, a strictly greater key
appears strictly earlier (here `evLeb x y = false` states x > y, as `evLeb`
is the total order on non-NaN keys); and every NaN-keyed row appears after
every row with a defined key. -/
theorem C5_sorted_desc (df : Table) (metric out_dir pop_col ls fs : String)
    (eff : List FsOp) (ot : OutTable) (pth : String)
    (h : make_output_for_metric df metric out_dir pop_col ls fs =
      (eff, .ok (ot, pth))) :
    (∀ i j : Fin ot.rows.length,
      (ot.rows.get i).per100k ≠ .nan → (ot.rows.get j).per100k ≠ .nan →
      evLeb (ot.rows.get i).per100k (ot.rows.get j).per100k = false →
      (i : ℕ) < (j : ℕ)) ∧
    (∀ i j : Fin ot.rows.length,
      (ot.rows.get i).per100k = .nan → (ot.rows.get j).per100k ≠ .nan →
      (j : ℕ) < (i : ℕ)) := by
  have hsorted : List.Sorted rowLE ot.rows := by
    rw [(make_output_ok_eq h).1]
    exact List.sorted_insertionSort rowLE _
  have hpw : ∀ i j : Fin ot.rows.length, i < j →
      rowLE (ot.rows.get i) (ot.rows.get j) :=
    fun i j hij => List.pairwise_iff_get.mp hsorted i j hij
  constructor
  · intro i j hi hj hgt
    by_contra hnot
    push_neg at hnot
    rcases eq_or_lt_of_le hnot with heq | hlt
    · have hij : j = i := Fin.ext heq
      subst hij
      rw [evLeb_refl _ hi] at hgt
      exact Bool.noConfusion hgt
    · have hji := hpw j i hlt
      unfold rowLE at hji
      rw [if_neg hi, if_neg hj] at hji
      rw [hgt] at hji
      exact Bool.noConfusion hji
  · intro i j hnan hj
    by_contra hnot
    push_neg at hnot
    rcases eq_or_lt_of_le hnot with heq | hlt
    · have hij : i = j := Fin.ext heq
      subst hij
      exact hj hnan
    · have hij := hpw i j hlt
      unfold rowLE at hij
      rw [if_neg hj, if_pos hnan] at hij
      exact Bool.noConfusion hij

theorem C5_sorted_desc_witness :
    (∀ i j : Fin OTsort.rows.length,
      (OTsort.rows.get i).per100k ≠ .nan → (OTsort.rows.get j).per100k ≠ .nan →
      evLeb (OTsort.rows.get i).per100k (OTsort.rows.get j).per100k = false →
      (i : ℕ) < (j : ℕ)) ∧
    (∀ i j : Fin OTsort.rows.length,
      (OTsort.rows.get i).per100k = .nan → (OTsort.rows.get j).per100k ≠ .nan →
      (j : ℕ) < (i : ℕ)) :=
  C5_sorted_desc Tsort "allVeterans" "out" "population" "" "-rate"
    [.mkdirP "out", .writeFile "out/all-veterans-rate.csv"] OTsort
    "out/all-veterans-rate.csv"
    (by
      norm_num [make_output_for_metric, buildRow, idxOf, cellAt, cellToNum, evDiv,
        evScale, truncQ, rowLE, evLeb, camel_to_kebab, camelChars, camelStep,
        Tsort, OTsort, List.insertionSort, List.orderedInsert]
      decide)

/-- C6: on every non-empty all-letter input, the normalizer output is the
lower-cased first character followed by, for each later character, a hyphen
plus the lower case of that character if it is an internal capital and the
character itself otherwise; hence the hyphen count equals the number of
internal capital boundaries (so the hyphen-separated segments number one
more), no output character is upper case, no two hyphens are adjacent, and
the output neither starts nor ends with a hyphen nor is empty. The three
fixed-vocabulary examples evaluate as the spec states. -/
theorem C6_normalizer_kebab (c : Char) (cs : List Char)
    (h : ∀ x ∈ c :: cs, x.isAlpha = true) :
    (camelChars (c :: cs) =
      (if c.isUpper = true then [c.toLower] else [c]) ++ kebabExpand cs) ∧
    (camelChars (c :: cs)).count '-' = cs.countP (fun x => x.isUpper) ∧
    (∀ x ∈ camelChars (c :: cs), x.isUpper = false) ∧
    noDoubleDash (camelChars (c :: cs)) ∧
    (camelChars (c :: cs)).getLast? ≠ some '-' ∧
    camelChars (c :: cs) ≠ [] ∧
    (camelChars (c :: cs)).head? ≠ some '-' ∧
    camel_to_kebab "allVeterans" = "all-veterans" ∧
    camel_to_kebab "ww2" = "ww2" ∧
    camel_to_kebab "koreanWar" = "korean-war" := by
  have hc : c.isAlpha = true := h c (by simp)
  have hrest : ∀ x ∈ cs, x.isAlpha = true := fun x hx => h x (by simp [hx])
  have hclosed := camelChars_closed c cs h
  by_cases hu : c.isUpper = true
  · obtain ⟨hnotup, hne⟩ := toLower_isUpper_props c hu
    have hhead : camelChars (c :: cs) = c.toLower :: kebabExpand cs := by
      rw [hclosed, if_pos hu]
      rfl
    refine ⟨hclosed, ?_, ?_, ?_, ?_, ?_, ?_, by decide, by decide, by decide⟩
    · rw [hhead]
      simp [List.count_cons, hne, count_dash_kebabExpand cs hrest]
    · intro x hx
      rw [hhead] at hx
      rcases List.mem_cons.mp hx with he | hm
      · rw [he]; exact hnotup
      · exact kebabExpand_not_upper cs hrest x hm
    · rw [hhead]
      exact noDoubleDash_cons_kebabExpand cs hrest _ hne
    · rw [hclosed, if_pos hu]
      exact getLast_append_kebabExpand cs [c.toLower] (by simp) (by simp [hne]) hrest
    · rw [hhead]; simp
    · rw [hhead]; simp [hne]
  · have hnotup : c.isUpper = false := by simpa using hu
    have hne : c ≠ '-' := alpha_not_upper_ne_dash c hc hnotup
    have hhead : camelChars (c :: cs) = c :: kebabExpand cs := by
      rw [hclosed, if_neg hu]
      rfl
    refine ⟨hclosed, ?_, ?_, ?_, ?_, ?_, ?_, by decide, by decide, by decide⟩
    · rw [hhead]
      simp [List.count_cons, hne, count_dash_kebabExpand cs hrest]
    · intro x hx
      rw [hhead] at hx
      rcases List.mem_cons.mp hx with he | hm
      · rw [he]; exact hnotup
      · exact kebabExpand_not_upper cs hrest x hm
    · rw [hhead]
      exact noDoubleDash_cons_kebabExpand cs hrest _ hne
    · rw [hclosed, if_neg hu]
      exact getLast_append_kebabExpand cs [c] (by simp) (by simp [hne]) hrest
    · rw [hhead]; simp
    · rw [hhead]; simp [hne]

theorem C6_normalizer_kebab_witness :
    (camelChars ('k' :: ['o', 'r', 'e', 'a', 'n', 'W', 'a', 'r']) =
      (if ('k').isUpper = true then [('k').toLower] else ['k']) ++
        kebabExpand ['o', 'r', 'e', 'a', 'n', 'W', 'a', 'r']) ∧
    (camelChars ('k' :: ['o', 'r', 'e', 'a', 'n', 'W', 'a', 'r'])).count '-' =
      (['o', 'r', 'e', 'a', 'n', 'W', 'a', 'r']).countP (fun x => x.isUpper) ∧
    camel_to_kebab "koreanWar" = "korean-war" :=
  have app := C6_normalizer_kebab 'k' ['o', 'r', 'e', 'a', 'n', 'W', 'a', 'r']
    (by decide)
  ⟨app.1, app.2.1, app.2.2.2.2.2.2.2.2.2⟩

/-- C7: for every successful invocation the returned (and written-to) path
is exactly `out_dir ++ "/" ++ kebab(metric) ++ file_suffix ++ ".csv"`; it
depends only on the output directory, the metric name and the file suffix —
two invocations sharing those three target the same path whatever their
tables or other parameters — and the effect trace performs a single
overwriting write to that path (plus the mkdir), never an append. -/
theorem C7_deterministic_path (df1 df2 : Table)
    (metric out_dir pop1 pop2 ls1 ls2 fs : String)
    (eff1 eff2 : List FsOp) (ot1 ot2 : OutTable) (pth1 pth2 : String)
    (h1 : make_output_for_metric df1 metric out_dir pop1 ls1 fs =
      (eff1, .ok (ot1, pth1)))
    (h2 : make_output_for_metric df2 metric out_dir pop2 ls2 fs =
      (eff2, .ok (ot2, pth2))) :
    pth1 = out_dir ++ "/" ++ camel_to_kebab metric ++ fs ++ ".csv" ∧
    pth1 = pth2 ∧
    eff1 = [.mkdirP out_dir, .writeFile pth1] := by
  obtain ⟨-, -, hp1, he1⟩ := make_output_ok_eq h1
  obtain ⟨-, -, hp2, -⟩ := make_output_ok_eq h2
  exact ⟨hp1, by rw [hp1, hp2], he1⟩

theorem C7_deterministic_path_witness :
    "out/all-veterans-rate.csv" =
      "out" ++ "/" ++ camel_to_kebab "allVeterans" ++ "-rate" ++ ".csv" ∧
    "out/all-veterans-rate.csv" = "out/all-veterans-rate.csv" ∧
    [FsOp.mkdirP "out", FsOp.writeFile "out/all-veterans-rate.csv"] =
      [FsOp.mkdirP "out", FsOp.writeFile "out/all-veterans-rate.csv"] :=
  C7_deterministic_path Tbasic Ttwo "allVeterans" "out" "population" "population"
    "" "" "-rate"
    [.mkdirP "out", .writeFile "out/all-veterans-rate.csv"]
    [.mkdirP "out", .writeFile "out/all-veterans-rate.csv"]
    OTbasic OTtwo "out/all-veterans-rate.csv" "out/all-veterans-rate.csv"
    (by
      norm_num [make_output_for_metric, buildRow, idxOf, cellAt, cellToNum, evDiv,
        evScale, truncQ, rowLE, evLeb, camel_to_kebab, camelChars, camelStep,
        Tbasic, OTbasic, List.insertionSort, List.orderedInsert]
      decide)
    (by
      norm_num [make_output_for_metric, buildRow, idxOf, cellAt, cellToNum, evDiv,
        evScale, truncQ, rowLE, evLeb, camel_to_kebab, camelChars, camelStep,
        Ttwo, OTtwo, List.insertionSort, List.orderedInsert]
      decide)

/-- A table with no population column. -/
def Tnopop : Table :=
  { cols := ["state", "allVeterans"]
    rows := [[.text "A", .numeric 3]] }

/-- C8: when the requested population column is absent from the table, the
builder fails with the (KeyError-carried) missing-column error naming that
column, and its effect trace is empty: no directory is created and no file
is written before (or after) the failing check. -/
theorem C8_missing_population_column (df : Table)
    (metric out_dir pop_col ls fs : String) (hp : pop_col ∉ df.cols) :
    make_output_for_metric df metric out_dir pop_col ls fs =
      ([], .error (.KeyError pop_col)) :=
  make_output_err_pop df metric out_dir pop_col ls fs hp

theorem C8_missing_population_column_witness :
    make_output_for_metric Tnopop "allVeterans" "out" "population" "" "-rate" =
      ([], .error (.KeyError "population")) :=
  C8_missing_population_column Tnopop "allVeterans" "out" "population" "" "-rate"
    (by decide)

/-- A one-row table with a negative numeric metric value. -/
def Tneg : Table :=
  { cols := ["state", "population", "allVeterans"]
    rows := [[.text "A", .numeric 100, .numeric (-3)]] }

/-- The output table of the builder on `Tneg`: the base column is negative. -/
def OTneg : OutTable :=
  { colNames := ["state", "allVeteransPer100k", "allVeteransPct", "allVeterans"]
    rows := [⟨.text "A", .num (-3000), .num (-3), -3⟩] }

/-- C9 counterexample: on a row whose metric cell is the numeric value -3,
the builder's metric count column contains -3, a negative integer, refuting
the claim that the metric count column is always non-negative: the code
truncates whatever numeric value the cell holds and never clamps. -/
theorem C9_counterexample :
    (make_output_for_metric Tneg "allVeterans" "out" "population" "" "-rate").2 =
      .ok (OTneg, "out/all-veterans-rate.csv") ∧
    OTneg.rows.map OutRow.base = [-3] ∧ (-3 : ℤ) < 0 := by
  refine ⟨?_, by decide, by decide⟩
  norm_num [make_output_for_metric, buildRow, idxOf, cellAt, cellToNum, evDiv,
    evScale, truncQ, rowLE, evLeb, camel_to_kebab, camelChars, camelStep,
    Tneg, OTneg, List.insertionSort, List.orderedInsert]
  decide

/-- A one-row table with a fractional metric value. -/
def Tfrac : Table :=
  { cols := ["state", "population", "allVeterans"]
    rows := [[.text "A", .numeric 1000, .numeric (7 / 2)]] }

/-- C9 (amended): the metric count column of the builder's output row is an
integer obtained by truncating the coerced metric value toward zero
(`astype(int)` semantics), with unparsable or missing cells mapped to 0; it
is non-negative whenever the metric cell is missing, non-numeric, or holds a
non-negative numeric value — but it is not clamped, so a negative numeric
input yields a negative count. -/
theorem C9_base_truncation_amended (df : Table)
    (metric out_dir pop_col ls fs : String)
    (eff : List FsOp) (ot : OutTable) (pth : String) (r : List Cell)
    (h : make_output_for_metric df metric out_dir pop_col ls fs =
      (eff, .ok (ot, pth)))
    (hr : r ∈ df.rows) :
    ((cellToNum (cellAt r (idxOf metric df.cols)) = none →
      (buildRow (idxOf pop_col df.cols) (idxOf metric df.cols)
        (idxOf "state" df.cols) r).base = 0) ∧
     (∀ q : ℚ, cellToNum (cellAt r (idxOf metric df.cols)) = some q →
      (buildRow (idxOf pop_col df.cols) (idxOf metric df.cols)
        (idxOf "state" df.cols) r).base = truncQ q ∧
      (0 ≤ q → 0 ≤ (buildRow (idxOf pop_col df.cols) (idxOf metric df.cols)
        (idxOf "state" df.cols) r).base))) ∧
    buildRow (idxOf pop_col df.cols) (idxOf metric df.cols)
      (idxOf "state" df.cols) r ∈ ot.rows := by
  refine ⟨⟨fun hn => ?_, fun q hq => ?_⟩, buildRow_mem_output h hr⟩
  · simp [buildRow, hn, truncQ]
  · have hbase : (buildRow (idxOf pop_col df.cols) (idxOf metric df.cols)
        (idxOf "state" df.cols) r).base = truncQ q := by
      simp [buildRow, hq]
    refine ⟨hbase, fun hq0 => ?_⟩
    rw [hbase]
    unfold truncQ
    rw [if_neg (not_lt.mpr hq0)]
    exact Int.floor_nonneg.mpr hq0

theorem C9_base_truncation_amended_witness :
    (buildRow (idxOf "population" Tfrac.cols) (idxOf "allVeterans" Tfrac.cols)
        (idxOf "state" Tfrac.cols)
        [Cell.text "A", Cell.numeric 1000, Cell.numeric (7 / 2)]).base =
      truncQ (7 / 2) ∧
    (0 ≤ (7 / 2 : ℚ) →
      0 ≤ (buildRow (idxOf "population" Tfrac.cols) (idxOf "allVeterans" Tfrac.cols)
        (idxOf "state" Tfrac.cols)
        [Cell.text "A", Cell.numeric 1000, Cell.numeric (7 / 2)]).base) :=
  (C9_base_truncation_amended Tfrac "allVeterans" "out" "population" "" "-rate"
    [.mkdirP "out", .writeFile "out/all-veterans-rate.csv"]
    { colNames := ["state", "allVeteransPer100k", "allVeteransPct", "allVeterans"]
      rows := [⟨.text "A", .num 350, .num (7 / 20), 3⟩] }
    "out/all-veterans-rate.csv"
    [Cell.text "A", Cell.numeric 1000, Cell.numeric (7 / 2)]
    (by
      norm_num [make_output_for_metric, buildRow, idxOf, cellAt, cellToNum, evDiv,
        evScale, truncQ, rowLE, evLeb, camel_to_kebab, camelChars, camelStep,
        Tfrac, List.insertionSort, List.orderedInsert]
      decide)
    (by simp [Tfrac])).1.2 (7 / 2) rfl

/-- A table with population and metric columns but no state column. -/
def Tnostate : Table :=
  { cols := ["population", "allVeterans"]
    rows := [[.numeric 1000, .numeric 10]] }

/-- C10: on every input table lacking a "state" column the builder fails
with an error (and performs no filesystem effect) instead of producing an
output table, even though only the population column is named as a checked
precondition: the "state" column is an undocumented requirement (the pandas
lookup building the output table raises on it). -/
theorem C10_state_column_required (df : Table)
    (metric out_dir pop_col ls fs : String) (hs : "state" ∉ df.cols) :
    ∃ e : BuildError, make_output_for_metric df metric out_dir pop_col ls fs =
      ([], .error e) := by
  by_cases hp : pop_col ∈ df.cols
  · by_cases hm : metric ∈ df.cols
    · exact ⟨.KeyError "state",
        make_output_err_state df metric out_dir pop_col ls fs hp hm hs⟩
    · exact ⟨.KeyError metric,
        make_output_err_metric df metric out_dir pop_col ls fs hp hm⟩
  · exact ⟨.KeyError pop_col,
      make_output_err_pop df metric out_dir pop_col ls fs hp⟩

theorem C10_state_column_required_witness :
    ∃ e : BuildError,
      make_output_for_metric Tnostate "allVeterans" "out" "population" "" "-rate" =
        ([], .error e) :=
  C10_state_column_required Tnostate "allVeterans" "out" "population" "" "-rate"
    (by decide)
